import Mathlib

/-!
# Verification of the BaiduPCS-Go range downloader core

This file gives a shallow embedding, in Lean 4, of the planning logic of the
`downloader` package (`Downloader.Execute`, `Downloader.MustCheck`,
`Downloader.lazyInit`, `Downloader.Cancel`) and of the driver helpers in
`internal/pcscommand/download.go` (`DownloadSuffix`, `getDownloadFunc`,
`fileExist`), and proves/refutes the specified properties of that code.

Machine integers (`int`, `int64`) are embedded as `Int`.  Division on
non-negative operands agrees between Go's truncated division and Lean's `/`
on `Int`; every claim below constrains the operands to be non-negative where
division occurs.  Fallible Go functions (returning `error`) are embedded as
`Except String _`; a Go `error` value is represented by its message string.
-/

namespace BaiduPCS

/-- A byte range `[Begin, End]`, inclusive at both ends
(`downloader.Range` with `Begin`, `End` fields, as used by `Execute`). -/
structure MRange where
  Begin : Int
  End : Int
deriving DecidableEq, Repr

/-- Interval membership for a range: `r.Begin ≤ x ≤ r.End`. -/
def inRange (r : MRange) (x : Int) : Prop :=
  r.Begin ≤ x ∧ x ≤ r.End

/-- `downloader.Config`: the fields read by the code under verification
(`MaxParallel`, `CacheSize`, `IsTest`, `InstanceStatePath`). -/
structure Config where
  MaxParallel : Int := 0
  CacheSize : Int := 0
  IsTest : Bool := false
  InstanceStatePath : String := ""
deriving DecidableEq, Repr

/-- Modelled from the spec: `MinParallelSize` is a named constant of the
downloader package whose defining file is not among the provided sources;
the spec fixes it at 256 KiB. -/
def MinParallelSize : Int := 256 * 1024

/-- The part of the HEAD response that `Execute` reads: status code, status
text, `Content-Length`, and the `Accept-Ranges` header value. -/
structure HeadResponse where
  StatusCode : Int
  Status : String
  ContentLength : Int
  acceptRangesHeader : String
deriving DecidableEq, Repr

/-- The persisted aggregate download status (`DownloadStatus`); `Execute`
only reads its `totalSize` after restoring it from a checkpoint. -/
structure DownloadStatus where
  totalSize : Int
deriving DecidableEq, Repr

/-- The data `instanceState.Get()` yields: the persisted status (possibly
absent) and the persisted ranges (`InstanceInfo` with `DlStatus`, `Ranges`). -/
structure InstanceInfo where
  DlStatus : Option DownloadStatus
  Ranges : List MRange
deriving DecidableEq, Repr

/-- The environment `Execute` interacts with: the downloader config, the
result of the HEAD probe (`client.Req("HEAD", …)`), the result of
`initInstanceState` (which loads the checkpoint and may fail), and whether
`Cancel` is invoked while the monitor runs. -/
structure ExecInput where
  config : Config
  headResult : Except String HeadResponse
  initStateResult : Except String (Option InstanceInfo)
  cancelRequested : Bool
deriving Repr

/-- Observable outcome of one `Execute` call.  `result` is the returned Go
error (`none` = `nil`).  `workersBuilt` lists the range assigned to each
constructed `Worker`, in order.  `checkpointLoaded` records that
`initInstanceState` ran; `checkpointRemoved` that `removeInstanceState` was
invoked (per the spec it deletes the on-disk checkpoint file);
`monitorRan` that `monitor.Execute` was called (workers touch the sink and
the checkpoint only from inside the monitor run, so `monitorRan = false`
entails that no byte was written to the sink and no checkpoint written);
`monitorCancelled` that the monitor context was cancelled mid-run;
`onExecuteFired`/`onFinishFired` record the event callbacks. -/
structure ExecTrace where
  result : Option String := none
  parallel : Int := 0
  cacheSize : Int := 0
  workersBuilt : List MRange := []
  checkpointLoaded : Bool := false
  checkpointRemoved : Bool := false
  monitorRan : Bool := false
  monitorCancelled : Bool := false
  onExecuteFired : Bool := false
  onFinishFired : Bool := false
deriving DecidableEq, Repr

/-- Lines 94–99 of `Execute`: the `Accept-Ranges` header is read and then
unconditionally overwritten — `""` when `ContentLength <= 0`, `"bytes"`
otherwise. -/
def decideAcceptRanges (headerAcceptRanges : String) (contentLength : Int) : String :=
  if contentLength ≤ 0 then "" else "bytes"

/-- Lines 101 and 119–131 of `Execute`: `monitor.status.totalSize` is first
set to the HEAD `ContentLength`, then replaced wholesale by the persisted
`DlStatus` when a checkpoint with a status was loaded. -/
def effectiveStatusTotal (resp : HeadResponse) (instanceInfo : Option InstanceInfo) : Int :=
  match instanceInfo with
  | some ii =>
    match ii.DlStatus with
    | some st => st.totalSize
    | none => resp.ContentLength
  | none => resp.ContentLength

/-- Lines 134–144 of `Execute`: choose `config.parallel`.  `isRange` is
`ranges != nil && len(ranges) > 0`; `numRanges` is `len(ranges)`. -/
def computeParallel (acceptRanges : String) (isRange : Bool) (numRanges : Int)
    (MaxParallel totalSize : Int) : Int :=
  if acceptRanges = "" then 1
  else if isRange then numRanges
  else if MaxParallel > totalSize / MinParallelSize then totalSize / MinParallelSize + 1
  else MaxParallel

/-- Lines 146–152 of `Execute`: `config.cacheSize` starts at
`config.CacheSize` and is lowered to `blockSize` when it exceeds it. -/
def clampCacheSize (CacheSize blockSize : Int) : Int :=
  if CacheSize > blockSize then blockSize else CacheSize

/-- Lines 178–197 of `Execute`: the worker-construction loop, with
`fuel = parallel - i` making the `i < parallel` loop bound structural.
For a resumed plan (`isRange`) worker `i` receives `ranges[i]`; for a fresh
plan it receives `{Begin := begin, End := (i+1)*blockSize}`, the carried
`begin` is advanced to `end + 1`, and the last worker's `End` is overwritten
with `totalSize - 1`.  (`begin`/`end` are not read on the `isRange` side,
exactly as in the source.) -/
def workerLoopAux (isRange : Bool) (ranges : List MRange) (totalSize blockSize : Int)
    (parallel : Nat) : Nat → Nat → Int → List MRange
  | 0, _, _ => []
  | fuel + 1, i, b =>
    let e : Int := ((i : Int) + 1) * blockSize
    let w : MRange :=
      if isRange then ranges.getD i { Begin := 0, End := 0 }
      else
        let w0 : MRange := { Begin := b, End := e }
        if i = parallel - 1 then { w0 with End := totalSize - 1 } else w0
    w :: workerLoopAux isRange ranges totalSize blockSize parallel fuel (i + 1) (e + 1)

/-- The worker-construction loop of `Execute`, run from `i = 0`,
`begin = 0` for `parallel` iterations. -/
def workerLoop (isRange : Bool) (ranges : List MRange) (totalSize blockSize : Int)
    (parallel : Nat) : List MRange :=
  workerLoopAux isRange ranges totalSize blockSize parallel parallel 0 0

/-- `Downloader.Execute` (lines 74–208), as the trace of its observable
actions.  The HEAD probe error and the 4xx/5xx status check return early;
then `acceptRanges` is overwritten from `ContentLength`, the checkpoint is
loaded (an error again returns early), parallelism / cache size / worker
ranges are computed, the monitor runs under a cancellable context,
`removeInstanceState` is invoked unconditionally, `onFinish` fires, and
`nil` is returned. -/
def execute (inp : ExecInput) : ExecTrace :=
  match inp.headResult with
  | .error e => { result := some e }
  | .ok resp =>
    if resp.StatusCode / 100 = 4 ∨ resp.StatusCode / 100 = 5 then
      { result := some resp.Status }
    else
      let acceptRanges := decideAcceptRanges resp.acceptRangesHeader resp.ContentLength
      match inp.initStateResult with
      | .error e => { result := some e }
      | .ok instanceInfo =>
        let ranges : List MRange :=
          match instanceInfo with
          | some ii => ii.Ranges
          | none => []
        let totalSize := effectiveStatusTotal resp instanceInfo
        let isRange := !ranges.isEmpty
        let parallel := computeParallel acceptRanges isRange (ranges.length : Int)
          inp.config.MaxParallel totalSize
        let blockSize := totalSize / parallel
        let cacheSize := clampCacheSize inp.config.CacheSize blockSize
        let workers := workerLoop isRange ranges totalSize blockSize parallel.toNat
        { result := none
          parallel := parallel
          cacheSize := cacheSize
          workersBuilt := workers
          checkpointLoaded := true
          checkpointRemoved := true
          monitorRan := true
          monitorCancelled := inp.cancelRequested
          onExecuteFired := true
          onFinishFired := true }

/-- The injected HTTP client (`requester.HTTPClient`); only its presence
matters to the code under verification. -/
structure HTTPClient
deriving DecidableEq, Repr

/-- `requester.NewHTTPClient()`: the default client `lazyInit` constructs. -/
def NewHTTPClient : HTTPClient := {}

/-- The `Downloader` fields that `lazyInit` and `MustCheck` consult:
the optional injected client, the optional config, and whether the monitor
has been initialised. -/
structure DownloaderHandle where
  client : Option HTTPClient
  config : Option Config
  monitorInit : Bool
deriving DecidableEq, Repr

/-- `Downloader.lazyInit` (lines 62–71): install a default HTTP client when
none was injected, and initialise the monitor when absent. -/
def lazyInit (d : DownloaderHandle) : DownloaderHandle :=
  let d1 := if d.client.isNone then { d with client := some NewHTTPClient } else d
  if d1.monitorInit = false then { d1 with monitorInit := true } else d1

/-- `Downloader.MustCheck` (lines 33–41): panic (embedded as `.error`)
when the config or the client is nil. -/
def MustCheck (d : DownloaderHandle) : Except String Unit :=
  if d.config.isNone then .error "config is nil"
  else if d.client.isNone then .error "client is nil"
  else .ok ()

/-- Lines 74–76 of `Execute`: `lazyInit()` followed by `MustCheck()` — the
only validation `Execute` performs before the HEAD probe. -/
def executePrecheck (d : DownloaderHandle) : Except String Unit :=
  MustCheck (lazyInit d)

/-- Closed form of the fresh-plan partition produced by the worker loop:
worker `0` starts at `0`, worker `i ≥ 1` at `i*blockSize + 1`; worker `i`
ends at `(i+1)*blockSize` except the last, which ends at `totalSize - 1`.
(The last-worker clause takes precedence when `parallel = 1`, exactly as the
source's final-iteration overwrite does.) -/
def rangeSpec (totalSize blockSize : Int) (parallel : Nat) (i : Nat) : MRange :=
  { Begin := if i = 0 then 0 else (i : Int) * blockSize + 1,
    End := if i = parallel - 1 then totalSize - 1 else ((i : Int) + 1) * blockSize }

/-- `pcscommand.DownloadSuffix`: the fixed checkpoint-file suffix. -/
def DownloadSuffix : String := ".BaiduPCS-Go-downloading"

/-- `getDownloadFunc` (lines 49–51): in a non-test run the checkpoint path is
set to `savePath + DownloadSuffix`; in a test run no sink is opened and no
checkpoint path is set. -/
def instanceStatePathOf (isTest : Bool) (savePath : String) : Option String :=
  if isTest then none else some (savePath ++ DownloadSuffix)

/-- `pcscommand.fileExist` (lines 249–257): a destination counts as existing
only when `os.Stat` succeeds on it and fails on its checkpoint file.
`statOk p` models `os.Stat(p)` returning no error. -/
def fileExist (statOk : String → Bool) (path : String) : Bool :=
  if statOk path then
    if statOk (path ++ DownloadSuffix) then false else true
  else false

/-- Line 230 of `RunDownload`: a queued file is skipped as already
downloaded exactly when the run is not a test and `fileExist` holds. -/
def skipsExisting (isTest : Bool) (statOk : String → Bool) (savePath : String) : Bool :=
  !isTest && fileExist statOk savePath

/-! ## Helper lemmas -/

theorem clampCacheSize_eq_min (C b : Int) : clampCacheSize C b = min C b := by
  unfold clampCacheSize
  split <;> omega

theorem execute_ok_eq (cfg : Config) (resp : HeadResponse) (ii : Option InstanceInfo) (cr : Bool)
    (hst : ¬(resp.StatusCode / 100 = 4 ∨ resp.StatusCode / 100 = 5)) :
    execute { config := cfg, headResult := .ok resp, initStateResult := .ok ii,
              cancelRequested := cr } =
      (let acceptRanges := decideAcceptRanges resp.acceptRangesHeader resp.ContentLength
       let ranges : List MRange := match ii with | some i => i.Ranges | none => []
       let totalSize := effectiveStatusTotal resp ii
       let isRange := !ranges.isEmpty
       let parallel := computeParallel acceptRanges isRange (ranges.length : Int)
         cfg.MaxParallel totalSize
       let blockSize := totalSize / parallel
       { result := none
         parallel := parallel
         cacheSize := clampCacheSize cfg.CacheSize blockSize
         workersBuilt := workerLoop isRange ranges totalSize blockSize parallel.toNat
         checkpointLoaded := true
         checkpointRemoved := true
         monitorRan := true
         monitorCancelled := cr
         onExecuteFired := true
         onFinishFired := true }) := by
  simp only [execute, if_neg hst]

/-! ## Claims about the HEAD probe and error paths -/

/-- **C6.** For every HEAD probe whose response status class is 4xx or 5xx,
`Execute` returns an error carrying that status immediately — before any
worker is built, any byte is written to the sink (the monitor never runs),
or any checkpoint is loaded, written or removed; on a transport error of
the HEAD request, `Execute` returns that network error, again before
anything else happens. -/
theorem claim_C6_head_errors (inp : ExecInput) :
    (∀ e, inp.headResult = .error e →
      (execute inp).result = some e ∧ (execute inp).workersBuilt = [] ∧
      (execute inp).checkpointLoaded = false ∧ (execute inp).checkpointRemoved = false ∧
      (execute inp).monitorRan = false) ∧
    (∀ resp, inp.headResult = .ok resp →
      (resp.StatusCode / 100 = 4 ∨ resp.StatusCode / 100 = 5) →
      (execute inp).result = some resp.Status ∧ (execute inp).workersBuilt = [] ∧
      (execute inp).checkpointLoaded = false ∧ (execute inp).checkpointRemoved = false ∧
      (execute inp).monitorRan = false) := by
  obtain ⟨cfg, hr, isr, cr⟩ := inp
  constructor
  · rintro e rfl
    simp [execute]
  · rintro resp rfl hst
    simp [execute, if_pos hst]

/-- Witness for C6: a HEAD transport error is returned as-is, and a 404
HEAD status is returned as the error `"404 Not Found"`, in both cases with
no worker built, no checkpoint touched, and the monitor never run. -/
theorem claim_C6_head_errors_witness :
    ((execute { config := { MaxParallel := 4, CacheSize := 1024 },
                headResult := .error "dial tcp: i/o timeout",
                initStateResult := .ok none,
                cancelRequested := false }).result = some "dial tcp: i/o timeout" ∧
     (execute { config := { MaxParallel := 4, CacheSize := 1024 },
                headResult := .error "dial tcp: i/o timeout",
                initStateResult := .ok none,
                cancelRequested := false }).workersBuilt = [] ∧
     (execute { config := { MaxParallel := 4, CacheSize := 1024 },
                headResult := .error "dial tcp: i/o timeout",
                initStateResult := .ok none,
                cancelRequested := false }).checkpointLoaded = false ∧
     (execute { config := { MaxParallel := 4, CacheSize := 1024 },
                headResult := .error "dial tcp: i/o timeout",
                initStateResult := .ok none,
                cancelRequested := false }).checkpointRemoved = false ∧
     (execute { config := { MaxParallel := 4, CacheSize := 1024 },
                headResult := .error "dial tcp: i/o timeout",
                initStateResult := .ok none,
                cancelRequested := false }).monitorRan = false) ∧
    ((execute { config := { MaxParallel := 4, CacheSize := 1024 },
                headResult := .ok { StatusCode := 404, Status := "404 Not Found",
                                    ContentLength := -1, acceptRangesHeader := "" },
                initStateResult := .ok none,
                cancelRequested := false }).result = some "404 Not Found" ∧
     (execute { config := { MaxParallel := 4, CacheSize := 1024 },
                headResult := .ok { StatusCode := 404, Status := "404 Not Found",
                                    ContentLength := -1, acceptRangesHeader := "" },
                initStateResult := .ok none,
                cancelRequested := false }).workersBuilt = [] ∧
     (execute { config := { MaxParallel := 4, CacheSize := 1024 },
                headResult := .ok { StatusCode := 404, Status := "404 Not Found",
                                    ContentLength := -1, acceptRangesHeader := "" },
                initStateResult := .ok none,
                cancelRequested := false }).checkpointLoaded = false ∧
     (execute { config := { MaxParallel := 4, CacheSize := 1024 },
                headResult := .ok { StatusCode := 404, Status := "404 Not Found",
                                    ContentLength := -1, acceptRangesHeader := "" },
                initStateResult := .ok none,
                cancelRequested := false }).checkpointRemoved = false ∧
     (execute { config := { MaxParallel := 4, CacheSize := 1024 },
                headResult := .ok { StatusCode := 404, Status := "404 Not Found",
                                    ContentLength := -1, acceptRangesHeader := "" },
                initStateResult := .ok none,
                cancelRequested := false }).monitorRan = false) :=
  ⟨(claim_C6_head_errors _).1 "dial tcp: i/o timeout" rfl,
   (claim_C6_head_errors _).2 { StatusCode := 404, Status := "404 Not Found",
                                ContentLength := -1, acceptRangesHeader := "" } rfl
     (by decide)⟩

/-- **C10.** For every HEAD response whose status class is neither 4xx nor
5xx — including 1xx and 3xx, not only 2xx — `Execute` proceeds exactly as if
the probe had returned 200: the status-code switch has no failure branch for
those classes, so the whole run is unchanged when the status code is
replaced by 200. -/
theorem claim_C10_non_45_proceeds (cfg : Config) (resp : HeadResponse)
    (isr : Except String (Option InstanceInfo)) (cr : Bool)
    (h4 : resp.StatusCode / 100 ≠ 4) (h5 : resp.StatusCode / 100 ≠ 5) :
    execute { config := cfg, headResult := .ok resp, initStateResult := isr,
              cancelRequested := cr } =
    execute { config := cfg, headResult := .ok { resp with StatusCode := 200 },
              initStateResult := isr, cancelRequested := cr } := by
  obtain ⟨sc, st, cl, ar⟩ := resp
  simp only at h4 h5
  simp only [execute, if_neg (not_or.mpr ⟨h4, h5⟩)]
  norm_num
  cases isr with
  | error e => rfl
  | ok ii =>
    cases ii with
    | none => rfl
    | some i => cases hd : i.DlStatus <;> rfl

/-- Witness for C10: a 101 (1xx) probe and a 302 (3xx) probe run exactly as
a 200 probe would. -/
theorem claim_C10_non_45_proceeds_witness :
    (execute { config := { MaxParallel := 4, CacheSize := 1024 },
               headResult := .ok { StatusCode := 101, Status := "101 Switching Protocols",
                                   ContentLength := 4096, acceptRangesHeader := "" },
               initStateResult := .ok none, cancelRequested := false } =
     execute { config := { MaxParallel := 4, CacheSize := 1024 },
               headResult := .ok { StatusCode := 200, Status := "101 Switching Protocols",
                                   ContentLength := 4096, acceptRangesHeader := "" },
               initStateResult := .ok none, cancelRequested := false }) ∧
    (execute { config := { MaxParallel := 4, CacheSize := 1024 },
               headResult := .ok { StatusCode := 302, Status := "302 Found",
                                   ContentLength := 4096, acceptRangesHeader := "" },
               initStateResult := .ok none, cancelRequested := false } =
     execute { config := { MaxParallel := 4, CacheSize := 1024 },
               headResult := .ok { StatusCode := 200, Status := "302 Found",
                                   ContentLength := 4096, acceptRangesHeader := "" },
               initStateResult := .ok none, cancelRequested := false }) :=
  ⟨claim_C10_non_45_proceeds _ _ _ _ (by decide) (by decide),
   claim_C10_non_45_proceeds _ _ _ _ (by decide) (by decide)⟩

/-! ## Claims about parallelism, range decision and cache clamping -/

/-- **C3.** For every fresh range-capable plan with total size `T > 0` and
`MaxParallel = M ≥ 1`, the chosen parallelism equals
`min M (T / MinParallelSize + 1)` (integer division). -/
theorem claim_C3_parallel_is_min (T M : Int) (hT : 0 < T) (hM : 1 ≤ M) :
    computeParallel "bytes" false 0 M T = min M (T / MinParallelSize + 1) := by
  simp only [computeParallel, MinParallelSize]
  norm_num
  rw [if_neg (by decide : ¬("bytes" = "")), min_def]
  split <;> split <;> omega

/-- Witness for C3 at the spec's concrete scenario: `T = 100`, `M = 8`,
`MinParallelSize = 256*1024` give parallelism `1`. -/
theorem claim_C3_parallel_is_min_witness :
    computeParallel "bytes" false 0 8 100 = min 8 (100 / MinParallelSize + 1) ∧
    computeParallel "bytes" false 0 8 100 = 1 :=
  ⟨claim_C3_parallel_is_min 100 8 (by decide) (by decide), by decide⟩

/-- **C4.** For every run with effective total size `T > 0`, configured
cache size `C` and chosen parallelism `N` (as recorded in the run's trace),
the effective cache size used by workers equals `min C (T / N)` with integer
division; consequently it never exceeds `C`. -/
theorem claim_C4_cache_clamp (cfg : Config) (resp : HeadResponse) (ii : Option InstanceInfo)
    (cr : Bool)
    (hst : ¬(resp.StatusCode / 100 = 4 ∨ resp.StatusCode / 100 = 5))
    (hT : 0 < effectiveStatusTotal resp ii) :
    (execute { config := cfg, headResult := .ok resp, initStateResult := .ok ii,
               cancelRequested := cr }).cacheSize =
      min cfg.CacheSize
        (effectiveStatusTotal resp ii /
          (execute { config := cfg, headResult := .ok resp, initStateResult := .ok ii,
                     cancelRequested := cr }).parallel) ∧
    (execute { config := cfg, headResult := .ok resp, initStateResult := .ok ii,
               cancelRequested := cr }).cacheSize ≤ cfg.CacheSize := by
  rw [execute_ok_eq cfg resp ii cr hst]
  refine ⟨?_, ?_⟩
  · simp only [clampCacheSize_eq_min]
  · simp only [clampCacheSize_eq_min]
    exact min_le_left _ _

/-- Witness for C4: a fresh 1 MiB run with `MaxParallel = 4` and
`CacheSize = 1024` uses cache size `min 1024 (1048576/4) = 1024 ≤ 1024`. -/
theorem claim_C4_cache_clamp_witness :
    (execute { config := { MaxParallel := 4, CacheSize := 1024 },
               headResult := .ok { StatusCode := 200, Status := "200 OK",
                                   ContentLength := 1048576, acceptRangesHeader := "bytes" },
               initStateResult := .ok none, cancelRequested := false }).cacheSize =
      min (1024 : Int)
        (1048576 /
          (execute { config := { MaxParallel := 4, CacheSize := 1024 },
                     headResult := .ok { StatusCode := 200, Status := "200 OK",
                                         ContentLength := 1048576,
                                         acceptRangesHeader := "bytes" },
                     initStateResult := .ok none, cancelRequested := false }).parallel) ∧
    (execute { config := { MaxParallel := 4, CacheSize := 1024 },
               headResult := .ok { StatusCode := 200, Status := "200 OK",
                                   ContentLength := 1048576, acceptRangesHeader := "bytes" },
               initStateResult := .ok none, cancelRequested := false }).cacheSize ≤ 1024 :=
  claim_C4_cache_clamp { MaxParallel := 4, CacheSize := 1024 }
    { StatusCode := 200, Status := "200 OK", ContentLength := 1048576,
      acceptRangesHeader := "bytes" }
    none false (by decide) (by decide)

/-- **C5.** For every HEAD response, `Execute` decides range capability
solely from `Content-Length`: when `ContentLength ≤ 0` the computed
`acceptRanges` is `""` — so the transfer is treated as non-ranged and the
chosen parallelism is forced to `1` whatever the ranges, `MaxParallel` and
total are — and when `ContentLength > 0` the computed `acceptRanges` is
`"bytes"`, whatever the actual `Accept-Ranges` header said. -/
theorem claim_C5_range_decision (hdr : String) (CL : Int) :
    (CL ≤ 0 → decideAcceptRanges hdr CL = "" ∧
      ∀ (isR : Bool) (numRanges M total : Int),
        computeParallel (decideAcceptRanges hdr CL) isR numRanges M total = 1) ∧
    (0 < CL → decideAcceptRanges hdr CL = "bytes") := by
  constructor
  · intro h
    refine ⟨by simp [decideAcceptRanges, h], ?_⟩
    intro isR numRanges M total
    simp [decideAcceptRanges, computeParallel, h]
  · intro h
    simp [decideAcceptRanges]
    omega

/-- Witness for C5: an unknown length (`-1`) yields `""` and parallelism 1
even with `Accept-Ranges: bytes` in the response; a positive length yields
`"bytes"` even with `Accept-Ranges: none`. -/
theorem claim_C5_range_decision_witness :
    (decideAcceptRanges "bytes" (-1) = "" ∧
      ∀ (isR : Bool) (numRanges M total : Int),
        computeParallel (decideAcceptRanges "bytes" (-1)) isR numRanges M total = 1) ∧
    decideAcceptRanges "none" 1048576 = "bytes" :=
  ⟨(claim_C5_range_decision "bytes" (-1)).1 (by decide),
   (claim_C5_range_decision "none" 1048576).2 (by decide)⟩

/-! ## Claims about cancellation and the precheck -/

/-- Counterexample to **C1** (as stated).  A run during which `Cancel` fires
still returns `nil` (not a `Cancelled` error), and `removeInstanceState` is
still invoked — the checkpoint file is deleted, not preserved: `Execute`
calls `removeInstanceState()` unconditionally after `monitor.Execute`
returns, and has no error return after that point. -/
theorem claim_C1_counterexample :
    (execute { config := { MaxParallel := 2, CacheSize := 1024 },
               headResult := .ok { StatusCode := 200, Status := "200 OK",
                                   ContentLength := 1048576, acceptRangesHeader := "bytes" },
               initStateResult := .ok none,
               cancelRequested := true }).result = none ∧
    (execute { config := { MaxParallel := 2, CacheSize := 1024 },
               headResult := .ok { StatusCode := 200, Status := "200 OK",
                                   ContentLength := 1048576, acceptRangesHeader := "bytes" },
               initStateResult := .ok none,
               cancelRequested := true }).checkpointRemoved = true ∧
    (execute { config := { MaxParallel := 2, CacheSize := 1024 },
               headResult := .ok { StatusCode := 200, Status := "200 OK",
                                   ContentLength := 1048576, acceptRangesHeader := "bytes" },
               initStateResult := .ok none,
               cancelRequested := true }).monitorCancelled = true := by
  decide

/-- **C1 (amended).** For every cancelled run (indeed for every run that
reaches the monitor: HEAD ok, status class not 4xx/5xx, checkpoint load ok),
`Execute` returns `nil` — there is no `Cancelled` error — and the checkpoint
is not preserved: `removeInstanceState` runs unconditionally before
`onFinish` fires.  Cancellation only makes the monitor stop early. -/
theorem claim_C1_cancel_removes_checkpoint (cfg : Config) (resp : HeadResponse)
    (ii : Option InstanceInfo)
    (hst : ¬(resp.StatusCode / 100 = 4 ∨ resp.StatusCode / 100 = 5)) :
    (execute { config := cfg, headResult := .ok resp, initStateResult := .ok ii,
               cancelRequested := true }).result = none ∧
    (execute { config := cfg, headResult := .ok resp, initStateResult := .ok ii,
               cancelRequested := true }).checkpointRemoved = true ∧
    (execute { config := cfg, headResult := .ok resp, initStateResult := .ok ii,
               cancelRequested := true }).monitorCancelled = true ∧
    (execute { config := cfg, headResult := .ok resp, initStateResult := .ok ii,
               cancelRequested := true }).onFinishFired = true := by
  rw [execute_ok_eq cfg resp ii true hst]
  exact ⟨rfl, rfl, rfl, rfl⟩

/-- Witness for the amended C1, at the same concrete cancelled run as the
counterexample but resuming from a checkpoint. -/
theorem claim_C1_cancel_removes_checkpoint_witness :
    (execute { config := { MaxParallel := 2, CacheSize := 1024 },
               headResult := .ok { StatusCode := 200, Status := "200 OK",
                                   ContentLength := 200, acceptRangesHeader := "bytes" },
               initStateResult := .ok (some { DlStatus := some { totalSize := 200 },
                                              Ranges := [{ Begin := 50, End := 99 },
                                                         { Begin := 100, End := 199 }] }),
               cancelRequested := true }).result = none ∧
    (execute { config := { MaxParallel := 2, CacheSize := 1024 },
               headResult := .ok { StatusCode := 200, Status := "200 OK",
                                   ContentLength := 200, acceptRangesHeader := "bytes" },
               initStateResult := .ok (some { DlStatus := some { totalSize := 200 },
                                              Ranges := [{ Begin := 50, End := 99 },
                                                         { Begin := 100, End := 199 }] }),
               cancelRequested := true }).checkpointRemoved = true ∧
    (execute { config := { MaxParallel := 2, CacheSize := 1024 },
               headResult := .ok { StatusCode := 200, Status := "200 OK",
                                   ContentLength := 200, acceptRangesHeader := "bytes" },
               initStateResult := .ok (some { DlStatus := some { totalSize := 200 },
                                              Ranges := [{ Begin := 50, End := 99 },
                                                         { Begin := 100, End := 199 }] }),
               cancelRequested := true }).monitorCancelled = true ∧
    (execute { config := { MaxParallel := 2, CacheSize := 1024 },
               headResult := .ok { StatusCode := 200, Status := "200 OK",
                                   ContentLength := 200, acceptRangesHeader := "bytes" },
               initStateResult := .ok (some { DlStatus := some { totalSize := 200 },
                                              Ranges := [{ Begin := 50, End := 99 },
                                                         { Begin := 100, End := 199 }] }),
               cancelRequested := true }).onFinishFired = true :=
  claim_C1_cancel_removes_checkpoint { MaxParallel := 2, CacheSize := 1024 }
    { StatusCode := 200, Status := "200 OK", ContentLength := 200,
      acceptRangesHeader := "bytes" }
    (some { DlStatus := some { totalSize := 200 },
            Ranges := [{ Begin := 50, End := 99 }, { Begin := 100, End := 199 }] })
    (by decide)

/-- Counterexample to **C8** (as stated).  Calling `Execute` on a downloader
with a config but no injected client does not fail: `lazyInit` installs a
default `requester.NewHTTPClient()` before `MustCheck` runs, so the
client-nil panic can never fire from `Execute`. -/
theorem claim_C8_counterexample :
    executePrecheck { client := none,
                      config := some { MaxParallel := 1, CacheSize := 1024 },
                      monitorInit := false } = .ok () := rfl

/-- **C8 (amended).** `Execute`'s precheck succeeds for every downloader
whose config is non-nil, whether or not a client was injected: `lazyInit`
creates a default HTTP client when none was set, so no error (and no panic)
arises from a missing client. -/
theorem claim_C8_no_client_ok (d : DownloaderHandle) (hc : d.config.isSome = true) :
    executePrecheck d = .ok () := by
  obtain ⟨cl, cfgo, mi⟩ := d
  cases cfgo with
  | none => simp at hc
  | some cfg => cases cl <;> cases mi <;> rfl

/-- Witness for the amended C8: a downloader with no injected client and an
already-initialised monitor passes the precheck. -/
theorem claim_C8_no_client_ok_witness :
    executePrecheck { client := none,
                      config := some { MaxParallel := 8, CacheSize := 2048 },
                      monitorInit := true } = .ok () :=
  claim_C8_no_client_ok
    { client := none, config := some { MaxParallel := 8, CacheSize := 2048 },
      monitorInit := true } rfl

/-! ## Claims about the driver (download.go) -/

/-- **C9.** For every destination path `p` (in a normal, non-test run), the
checkpoint file path is exactly `p ++ ".BaiduPCS-Go-downloading"`, and the
driver treats the destination as already downloaded (skipping it) iff the
file at `p` exists and the file at `p ++ ".BaiduPCS-Go-downloading"` does
not. -/
theorem claim_C9_suffix_and_skip (p : String) (statOk : String → Bool) :
    instanceStatePathOf false p = some (p ++ ".BaiduPCS-Go-downloading") ∧
    (skipsExisting false statOk p = true ↔
      statOk p = true ∧ statOk (p ++ ".BaiduPCS-Go-downloading") = false) := by
  refine ⟨rfl, ?_⟩
  simp only [skipsExisting, fileExist, DownloadSuffix]
  by_cases h1 : statOk p <;> by_cases h2 : statOk (p ++ ".BaiduPCS-Go-downloading") <;>
    simp [h1, h2]

/-! ## Claims about the resumed plan -/

theorem workerLoopAux_true_eq_drop (ranges : List MRange) (T bs : Int) :
    ∀ (fuel i : Nat) (b : Int), i + fuel = ranges.length →
      workerLoopAux true ranges T bs ranges.length fuel i b = ranges.drop i := by
  intro fuel
  induction fuel with
  | zero =>
    intro i b h
    simp only [workerLoopAux]
    rw [eq_comm, List.drop_eq_nil_iff]
    omega
  | succ k ih =>
    intro i b h
    have hi : i < ranges.length := by omega
    simp only [workerLoopAux, if_pos rfl]
    rw [List.getD_eq_getElem _ _ hi, ih (i + 1) _ (by omega),
      List.drop_eq_getElem_cons hi]
    simp

/-- **C7.** For every run that resumes from a loaded checkpoint carrying a
non-empty list of `k` ranges, with the server treated as range-capable
(`ContentLength > 0`), the chosen parallelism equals `k` and worker `i` is
assigned exactly the `i`-th persisted range — for every `MaxParallel`, so
the `MaxParallel`/`MinParallelSize` clamp is ignored. -/
theorem claim_C7_resume_uses_persisted_ranges (cfg : Config) (resp : HeadResponse)
    (ii : InstanceInfo) (cr : Bool)
    (hst : ¬(resp.StatusCode / 100 = 4 ∨ resp.StatusCode / 100 = 5))
    (hCL : 0 < resp.ContentLength) (hne : ii.Ranges ≠ []) :
    (execute { config := cfg, headResult := .ok resp, initStateResult := .ok (some ii),
               cancelRequested := cr }).parallel = (ii.Ranges.length : Int) ∧
    (execute { config := cfg, headResult := .ok resp, initStateResult := .ok (some ii),
               cancelRequested := cr }).workersBuilt = ii.Ranges := by
  rw [execute_ok_eq cfg resp (some ii) cr hst]
  have hAR : decideAcceptRanges resp.acceptRangesHeader resp.ContentLength = "bytes" := by
    simp only [decideAcceptRanges, if_neg (by omega : ¬resp.ContentLength ≤ 0)]
  have hisR : ii.Ranges.isEmpty = false := List.isEmpty_eq_false.mpr hne
  have hpar : ∀ M T : Int,
      computeParallel "bytes" true (ii.Ranges.length : Int) M T = (ii.Ranges.length : Int) := by
    intro M T
    simp [computeParallel]
  simp only [hAR, hisR, Bool.not_false, hpar, Int.toNat_natCast]
  refine ⟨trivial, ?_⟩
  show workerLoop true ii.Ranges _ _ ii.Ranges.length = ii.Ranges
  rw [workerLoop, workerLoopAux_true_eq_drop ii.Ranges _ _ ii.Ranges.length 0 0 (by omega),
    List.drop_zero]

/-- Witness for C7: resuming from the spec's two persisted ranges
`[50,99], [100,199]` yields parallelism 2 and exactly those worker ranges,
although `MaxParallel` is 8. -/
theorem claim_C7_resume_uses_persisted_ranges_witness :
    (execute { config := { MaxParallel := 8, CacheSize := 1024 },
               headResult := .ok { StatusCode := 200, Status := "200 OK",
                                   ContentLength := 200, acceptRangesHeader := "" },
               initStateResult := .ok (some { DlStatus := some { totalSize := 200 },
                                              Ranges := [{ Begin := 50, End := 99 },
                                                         { Begin := 100, End := 199 }] }),
               cancelRequested := false }).parallel = ((2 : Nat) : Int) ∧
    (execute { config := { MaxParallel := 8, CacheSize := 1024 },
               headResult := .ok { StatusCode := 200, Status := "200 OK",
                                   ContentLength := 200, acceptRangesHeader := "" },
               initStateResult := .ok (some { DlStatus := some { totalSize := 200 },
                                              Ranges := [{ Begin := 50, End := 99 },
                                                         { Begin := 100, End := 199 }] }),
               cancelRequested := false }).workersBuilt =
      [{ Begin := 50, End := 99 }, { Begin := 100, End := 199 }] :=
  claim_C7_resume_uses_persisted_ranges { MaxParallel := 8, CacheSize := 1024 }
    { StatusCode := 200, Status := "200 OK", ContentLength := 200, acceptRangesHeader := "" }
    { DlStatus := some { totalSize := 200 },
      Ranges := [{ Begin := 50, End := 99 }, { Begin := 100, End := 199 }] }
    false (by decide) (by decide) (by decide)

/-! ## The fresh-plan partition (C2) -/

theorem workerLoopAux_false_spec (rs : List MRange) (T bs : Int) (P : Nat) :
    ∀ (fuel i : Nat), i + fuel = P → 1 ≤ i →
      workerLoopAux false rs T bs P fuel i ((i : Int) * bs + 1) =
        (List.range' i fuel).map (rangeSpec T bs P) := by
  intro fuel
  induction fuel with
  | zero =>
    intro i h h1
    simp [workerLoopAux]
  | succ k ih =>
    intro i h h1
    simp only [workerLoopAux, Bool.false_eq_true, if_false]
    rw [List.range'_succ, List.map_cons]
    congr 1
    · simp only [rangeSpec, if_neg (by omega : ¬i = 0)]
      split <;> rfl
    · have hcast : ((i : Int) + 1) * bs + 1 = ((i + 1 : Nat) : Int) * bs + 1 := by
        push_cast
        ring
      rw [hcast, ih (i + 1) (by omega) (by omega)]

theorem workerLoop_false_eq (rs : List MRange) (T bs : Int) (P : Nat) (hP : 1 ≤ P) :
    workerLoop false rs T bs P = (List.range P).map (rangeSpec T bs P) := by
  obtain ⟨k, rfl⟩ : ∃ k, P = k + 1 := ⟨P - 1, by omega⟩
  rw [workerLoop]
  simp only [workerLoopAux, Bool.false_eq_true, if_false]
  rw [List.range_eq_range', List.range'_succ, List.map_cons]
  congr 1
  · simp only [rangeSpec, if_pos rfl]
    split <;> rfl
  · exact workerLoopAux_false_spec rs T bs (k + 1) k 1 (by omega) (le_refl 1)

theorem getD_map_rangeSpec (T bs : Int) (P i : Nat) (h : i < P) :
    ((List.range P).map (rangeSpec T bs P)).getD i { Begin := 0, End := 0 } =
      rangeSpec T bs P i := by
  rw [List.getD_eq_getElem _ _ (by simpa using h)]
  simp

theorem rangeSpec_disjoint (T bs : Int) (P i j : Nat) (hbs : 0 ≤ bs)
    (hij : i < j) (hjP : j < P) (x : Int) :
    ¬(inRange (rangeSpec T bs P i) x ∧ inRange (rangeSpec T bs P j) x) := by
  have hiP : ¬i = P - 1 := by omega
  have hj0 : ¬j = 0 := by omega
  simp only [inRange, rangeSpec, if_neg hiP, if_neg hj0]
  rintro ⟨⟨h1, h2⟩, h3, h4⟩
  have hmul : ((i : Int) + 1) * bs ≤ (j : Int) * bs := by
    have hc : (i : Int) + 1 ≤ (j : Int) := by exact_mod_cast hij
    exact mul_le_mul_of_nonneg_right hc hbs
  linarith

theorem rangeSpec_cover_suffix (T bs : Int) (P : Nat) (hbs : 0 ≤ bs)
    (hPbs : (P : Int) * bs ≤ T) :
    ∀ (k i : Nat), i + k + 1 = P → 1 ≤ i → ∀ x : Int,
      ((i : Int) * bs + 1 ≤ x ∧ x ≤ T - 1) ↔
        ∃ j : Nat, i ≤ j ∧ j < P ∧ inRange (rangeSpec T bs P j) x := by
  intro k
  induction k with
  | zero =>
    intro i hip h1 x
    have hi : i = P - 1 := by omega
    have hi0 : ¬i = 0 := by omega
    constructor
    · rintro ⟨ha, hb⟩
      refine ⟨i, le_refl i, by omega, ?_⟩
      simp only [inRange, rangeSpec, if_neg hi0, if_pos hi]
      exact ⟨ha, hb⟩
    · rintro ⟨j, hij, hjP, hin⟩
      have hje : j = i := by omega
      subst hje
      simp only [inRange, rangeSpec, if_neg hi0, if_pos hi] at hin
      exact hin
  | succ k ih =>
    intro i hip h1 x
    have hiP : ¬i = P - 1 := by omega
    have hi0 : ¬i = 0 := by omega
    constructor
    · rintro ⟨ha, hb⟩
      by_cases hc : x ≤ ((i : Int) + 1) * bs
      · refine ⟨i, le_refl i, by omega, ?_⟩
        simp only [inRange, rangeSpec, if_neg hi0, if_neg hiP]
        exact ⟨ha, hc⟩
      · push_neg at hc
        have ha' : ((i + 1 : Nat) : Int) * bs + 1 ≤ x := by
          push_cast
          exact Int.add_one_le_iff.mpr hc
        obtain ⟨j, hj1, hj2, hj3⟩ := (ih (i + 1) (by omega) (by omega) x).mp ⟨ha', hb⟩
        exact ⟨j, by omega, hj2, hj3⟩
    · rintro ⟨j, hij, hjP, hin⟩
      by_cases hji : j = i
      · subst hji
        simp only [inRange, rangeSpec, if_neg hi0, if_neg (by omega : ¬j = P - 1)] at hin
        obtain ⟨h3, h4⟩ := hin
        refine ⟨h3, ?_⟩
        rcases eq_or_lt_of_le hbs with hb0 | hb1
        · rw [← hb0] at h3 h4
          simp only [mul_zero, zero_add] at h3 h4
          omega
        · have hc2 : (j : Int) + 1 ≤ (P : Int) - 1 := by
            have hc3 : j + 2 ≤ P := by omega
            omega
          have hmono : ((j : Int) + 1) * bs ≤ ((P : Int) - 1) * bs :=
            mul_le_mul_of_nonneg_right hc2 hbs
          have hexp : ((P : Int) - 1) * bs = (P : Int) * bs - bs := by ring
          linarith
      · obtain ⟨ha', hb'⟩ :=
          (ih (i + 1) (by omega) (by omega) x).mpr ⟨j, by omega, hjP, hin⟩
        push_cast at ha'
        refine ⟨?_, hb'⟩
        have hmono : (i : Int) * bs ≤ ((i : Int) + 1) * bs := by
          have hc : (i : Int) ≤ (i : Int) + 1 := by omega
          exact mul_le_mul_of_nonneg_right hc hbs
        linarith

theorem rangeSpec_cover (T bs : Int) (P : Nat) (hbs : 0 ≤ bs)
    (hPbs : (P : Int) * bs ≤ T) (hT : 1 ≤ T) (hP : 1 ≤ P) (x : Int) :
    (0 ≤ x ∧ x ≤ T - 1) ↔ ∃ j : Nat, j < P ∧ inRange (rangeSpec T bs P j) x := by
  rcases Nat.lt_or_ge P 2 with hP1 | hP2
  · have hPe : P = 1 := by omega
    subst hPe
    constructor
    · rintro ⟨h0, h1⟩
      refine ⟨0, by omega, ?_⟩
      simp only [inRange, rangeSpec]
      norm_num
      exact ⟨h0, h1⟩
    · rintro ⟨j, hj, hin⟩
      have hje : j = 0 := by omega
      subst hje
      simp only [inRange, rangeSpec] at hin
      norm_num at hin
      exact hin
  · have h0P : ¬(0 : Nat) = P - 1 := by omega
    constructor
    · rintro ⟨h0, h1⟩
      by_cases hc : x ≤ bs
      · refine ⟨0, by omega, ?_⟩
        simp only [inRange, rangeSpec, if_pos rfl, if_neg h0P]
        norm_num
        exact ⟨h0, hc⟩
      · push_neg at hc
        have h1' : ((1 : Nat) : Int) * bs + 1 ≤ x := by
          push_cast
          simpa using Int.add_one_le_iff.mpr hc
        obtain ⟨j, hj1, hj2, hj3⟩ :=
          (rangeSpec_cover_suffix T bs P hbs hPbs (P - 2) 1 (by omega) (le_refl 1) x).mp
            ⟨h1', h1⟩
        exact ⟨j, hj2, hj3⟩
    · rintro ⟨j, hjP, hin⟩
      by_cases hj0 : j = 0
      · subst hj0
        simp only [inRange, rangeSpec, if_pos rfl, if_neg h0P] at hin
        norm_num at hin
        obtain ⟨h3, h4⟩ := hin
        refine ⟨h3, ?_⟩
        rcases eq_or_lt_of_le hbs with hb0 | hb1
        · rw [← hb0] at h4
          omega
        · have hmono : (1 : Int) * bs ≤ ((P : Int) - 1) * bs := by
            have hc2 : (1 : Int) ≤ (P : Int) - 1 := by omega
            exact mul_le_mul_of_nonneg_right hc2 hbs
          have hexp : ((P : Int) - 1) * bs = (P : Int) * bs - bs := by ring
          linarith
      · obtain ⟨ha', hb'⟩ :=
          (rangeSpec_cover_suffix T bs P hbs hPbs (P - 2) 1 (by omega) (le_refl 1) x).mpr
            ⟨j, by omega, hjP, hin⟩
        push_cast at ha'
        refine ⟨by linarith, hb'⟩

theorem rangeSpec_sum_suffix (T bs : Int) (P : Nat) :
    ∀ (k i : Nat), i + k + 1 = P → 1 ≤ i →
      (((List.range' i (k + 1)).map (rangeSpec T bs P)).map
        (fun r => r.End - r.Begin + 1)).sum = T - 1 - (i : Int) * bs := by
  intro k
  induction k with
  | zero =>
    intro i hip h1
    have hi : i = P - 1 := by omega
    have hi0 : ¬i = 0 := by omega
    rw [List.range'_succ]
    simp only [List.range'_zero, List.map_cons, List.map_nil, List.sum_cons, List.sum_nil,
      rangeSpec, if_neg hi0, if_pos hi]
    ring
  | succ k ih =>
    intro i hip h1
    have hiP : ¬i = P - 1 := by omega
    have hi0 : ¬i = 0 := by omega
    rw [List.range'_succ, List.map_cons, List.map_cons, List.sum_cons,
      ih (i + 1) (by omega) (by omega)]
    simp only [rangeSpec, if_neg hi0, if_neg hiP]
    push_cast
    ring

theorem rangeSpec_sum (T bs : Int) (P : Nat) (hP : 1 ≤ P) :
    (((List.range P).map (rangeSpec T bs P)).map (fun r => r.End - r.Begin + 1)).sum = T := by
  rcases Nat.lt_or_ge P 2 with hP1 | hP2
  · have hPe : P = 1 := by omega
    subst hPe
    simp only [List.range_eq_range', List.range'_succ, List.range'_zero, List.map_cons,
      List.map_nil, List.sum_cons, List.sum_nil, rangeSpec]
    norm_num
  · obtain ⟨k, rfl⟩ : ∃ k, P = k + 2 := ⟨P - 2, by omega⟩
    have h0P : ¬(0 : Nat) = k + 2 - 1 := by omega
    rw [List.range_eq_range', List.range'_succ, List.map_cons, List.map_cons, List.sum_cons]
    rw [show (0 : Nat) + 1 = 1 from rfl]
    rw [rangeSpec_sum_suffix T bs (k + 2) k 1 (by omega) (le_refl 1)]
    simp only [rangeSpec, if_pos rfl, if_neg h0P]
    push_cast
    ring

/-- **C2.** For every fresh range-capable plan with total size `T > 0` and
chosen parallelism `N ≥ 1`, with `block = T / N` (integer division), the `N`
worker ranges computed by `Execute`'s loop are exactly: worker `0` gets
`[0, block]`, worker `i` for `1 ≤ i ≤ N-2` gets `[i*block + 1, (i+1)*block]`,
and worker `N-1` gets `[(N-1)*block + 1, T-1]` (the last-worker clause takes
precedence at `N = 1`, exactly as the source's final-iteration overwrite
does — this is `rangeSpec`); the ranges are pairwise disjoint; their union
covers exactly `[0, T-1]`; hence the sum of the range lengths
`End - Begin + 1` equals `T`. -/
theorem claim_C2_fresh_partition (T : Int) (N : Nat) (hT : 0 < T) (hN : 1 ≤ N) :
    workerLoop false [] T (T / (N : Int)) N =
      (List.range N).map (rangeSpec T (T / (N : Int)) N) ∧
    (∀ i j : Nat, i < N → j < N → i ≠ j → ∀ x : Int,
      ¬(inRange ((workerLoop false [] T (T / (N : Int)) N).getD i { Begin := 0, End := 0 }) x ∧
        inRange ((workerLoop false [] T (T / (N : Int)) N).getD j { Begin := 0, End := 0 }) x)) ∧
    (∀ x : Int, (0 ≤ x ∧ x ≤ T - 1) ↔
      ∃ r ∈ workerLoop false [] T (T / (N : Int)) N, inRange r x) ∧
    ((workerLoop false [] T (T / (N : Int)) N).map (fun r => r.End - r.Begin + 1)).sum = T := by
  have hNpos : (1 : Int) ≤ (N : Int) := by exact_mod_cast hN
  have hN0 : (N : Int) ≠ 0 := by omega
  have hbs : 0 ≤ T / (N : Int) := Int.ediv_nonneg (le_of_lt hT) (by omega)
  have hPbs : (N : Int) * (T / (N : Int)) ≤ T := by
    have h1 := Int.ediv_add_emod T (N : Int)
    have h2 := Int.emod_nonneg T hN0
    linarith
  have heq := workerLoop_false_eq [] T (T / (N : Int)) N hN
  refine ⟨heq, ?_, ?_, ?_⟩
  · intro i j hi hj hij x
    rw [heq, getD_map_rangeSpec T (T / (N : Int)) N i hi,
      getD_map_rangeSpec T (T / (N : Int)) N j hj]
    rcases Nat.lt_or_ge i j with h | h
    · exact rangeSpec_disjoint T (T / (N : Int)) N i j hbs h hj x
    · have hj2 : j < i := by omega
      intro hcon
      exact rangeSpec_disjoint T (T / (N : Int)) N j i hbs hj2 hi x ⟨hcon.2, hcon.1⟩
  · intro x
    rw [heq, rangeSpec_cover T (T / (N : Int)) N hbs hPbs (by omega) hN x]
    constructor
    · rintro ⟨j, hj, hin⟩
      exact ⟨rangeSpec T (T / (N : Int)) N j,
        List.mem_map_of_mem _ (List.mem_range.mpr hj), hin⟩
    · rintro ⟨r, hr, hin⟩
      obtain ⟨j, hj, rfl⟩ := List.mem_map.mp hr
      exact ⟨j, List.mem_range.mp hj, hin⟩
  · rw [heq]
    exact rangeSpec_sum T (T / (N : Int)) N hN

/-- Witness for C2 at the spec's concrete scenario 1: `T = 1048576`,
`N = 4` produce exactly the four ranges
`[0,262144], [262145,524288], [524289,786432], [786433,1048575]`, whose
lengths sum (via the theorem) to `1048576`. -/
theorem claim_C2_fresh_partition_witness :
    (0 : Int) < 1048576 ∧ 1 ≤ 4 ∧
    workerLoop false [] 1048576 (1048576 / ((4 : Nat) : Int)) 4 =
      [{ Begin := 0, End := 262144 }, { Begin := 262145, End := 524288 },
       { Begin := 524289, End := 786432 }, { Begin := 786433, End := 1048575 }] ∧
    ((workerLoop false [] 1048576 (1048576 / ((4 : Nat) : Int)) 4).map
      (fun r => r.End - r.Begin + 1)).sum = 1048576 :=
  ⟨by decide, by decide, by decide,
   (claim_C2_fresh_partition 1048576 4 (by decide) (by decide)).2.2.2⟩


end BaiduPCS
